import Mathlib

/-!
Verification of the quizify PDF-to-quiz pipeline.

Shallow embedding of the client-side pipeline of the repository:
the page classifier and the page-by-page ingestion loop
(`src/components/pdf-upload-form.tsx`, second revision, which is the one
that persists notes and the PDF data URI), the per-page generation flow
(`src/ai/flows/generate-mcqs-for-page.ts`), the two revisions of the
best-subset curator (`generate-best-mcqs`, object-returning and
index-returning), the quiz session handlers
(`src/components/quiz-interface.tsx`) and the persistence layer shapes
(`src/lib/quiz-store.ts`, `src/lib/types.ts`).

Page text is modelled as `List Char`; JavaScript string operations
(`toLowerCase`, `trim`, `includes`, `startsWith`, the one regex used by the
classifier) are embedded as executable character-list functions.  External
AI calls are suspension points: each is modelled by passing the call's
result (or its failure) as an explicit argument, so the surrounding
control flow can be analysed for every possible response.
-/

namespace Quizify

/-! ### Data model (`src/lib/types.ts`) -/

/-- `Mcq` from `src/lib/types.ts`: one generated question. -/
structure Mcq where
  question : String
  options : List String
  correctAnswerIndex : Nat
  explanation : String
deriving DecidableEq

instance : Inhabited Mcq := ⟨⟨"", [], 0, ""⟩⟩

/-- The document persisted by `saveQuiz` in `src/lib/quiz-store.ts`
(`id`/`createdAt` are store-generated and irrelevant here). -/
structure QuizRecord where
  subject : String
  mcqs : List Mcq
  pdfName : Option String
  notes : Option String
  pdfDataUri : Option String
deriving DecidableEq

/-- `QuizAttempt` from `src/lib/types.ts` (again without the
store-generated `id`/`completedAt`). -/
structure QuizAttempt where
  quizId : String
  answers : List (Option Nat)
  score : Nat
  totalQuestions : Nat
deriving DecidableEq

/-- `Quiz` from `src/lib/types.ts` as consumed by the quiz interface. -/
structure Quiz where
  id : String
  subject : String
  mcqs : List Mcq
  pdfName : Option String := none
  notes : Option String := none
  pdfDataUri : Option String := none
deriving DecidableEq

/-! ### JavaScript string primitives on `List Char` -/

/-- The whitespace class used by JavaScript `trim` and `\s`
(ASCII whitespace plus NBSP; enough for the texts considered here). -/
def isJsWs (c : Char) : Bool :=
  c == ' ' || c == '\t' || c == '\n' || c == '\r' ||
  c == Char.ofNat 11 || c == Char.ofNat 12 || c == Char.ofNat 160

/-- ASCII `toLowerCase` on one character. -/
def charToLower (c : Char) : Char :=
  if 'A' ≤ c ∧ c ≤ 'Z' then Char.ofNat (c.toNat + 32) else c

/-- `String.prototype.toLowerCase`. -/
def toLowerChars (l : List Char) : List Char := l.map charToLower

/-- `String.prototype.trim`. -/
def trimChars (l : List Char) : List Char :=
  ((l.dropWhile isJsWs).reverse.dropWhile isJsWs).reverse

/-- `String.prototype.startsWith`: `leadsWith pat s` holds when `pat`
occurs at the head of `s`. -/
def leadsWith : List Char → List Char → Bool
  | [], _ => true
  | _ :: _, [] => false
  | p :: ps, c :: cs => p == c && leadsWith ps cs

/-- `String.prototype.includes`: `containsSub pat s` holds when `pat`
occurs contiguously somewhere in `s`. -/
def containsSub (pat : List Char) : List Char → Bool
  | [] => pat.isEmpty
  | c :: rest => leadsWith pat (c :: rest) || containsSub pat rest

/-! ### Content classifier (`src/components/pdf-upload-form.tsx`) -/

/-- `MIN_TEXT_LENGTH_FOR_CONTENT` from `pdf-upload-form.tsx`. -/
def MIN_TEXT_LENGTH_FOR_CONTENT : Nat := 400

/-- `NON_CONTENT_PAGE_TITLES` from `pdf-upload-form.tsx`. -/
def NON_CONTENT_PAGE_TITLES : List String :=
  ["table of contents", "contents", "index", "preface", "foreword",
   "appendix", "bibliography", "references", "glossary",
   "acknowledgments", "acknowledgements", "errata",
   "list of figures", "list of tables", "figure captions", "table captions"]

/-- The regex test `lowerText.match(/^(chapter|part|section)\s+[0-9ivxlcdm]+/i)`
from `isLikelyNonContentPage` (the text is already lowercased when tested):
a leading keyword, then one or more whitespace characters, then at least one
digit or roman-numeral letter. -/
def matchesHeadingPattern (s : List Char) : Bool :=
  ["chapter", "part", "section"].any (fun kw =>
    let rest := s.drop kw.length
    leadsWith kw.toList s &&
      (match rest with
       | [] => false
       | c :: _ =>
         isJsWs c &&
           (match rest.dropWhile isJsWs with
            | [] => false
            | d :: _ => "0123456789ivxlcdm".toList.contains d)))

/-- `isLikelyNonContentPage` from `pdf-upload-form.tsx`. -/
def isLikelyNonContentPage (text : List Char) (pageNumber totalPages : Nat) : Bool :=
  let lowerText := trimChars (toLowerChars text)
  if (decide (pageNumber ≤ 5) || decide (totalPages - 5 ≤ pageNumber)) &&
      NON_CONTENT_PAGE_TITLES.any (fun title => containsSub title.toList lowerText) &&
      decide (lowerText.length < MIN_TEXT_LENGTH_FOR_CONTENT + 200) then
    true
  else if NON_CONTENT_PAGE_TITLES.any (fun title =>
      leadsWith title.toList lowerText &&
        decide (lowerText.length < title.length + 150)) then
    true
  else if matchesHeadingPattern lowerText && decide (lowerText.length < 150) then
    true
  else
    false

/-- The three skip checks that guard the generator call inside the page
loop of `onSubmit` (`pdf-upload-form.tsx`), in code order: empty text,
`isLikelyNonContentPage` (applied, as in the code, to the lowercased
trimmed text), then the minimum-length check.  Returns the recorded
page-error message when the page is skipped. -/
def skipCheck (text : List Char) (i numPages : Nat) : Option String :=
  if (trimChars text).isEmpty then
    some "No text content found, skipped."
  else
    let lowerPageTextTrimmed := trimChars (toLowerChars text)
    if isLikelyNonContentPage lowerPageTextTrimmed i numPages then
      some "Skipped (likely non-content/structural)."
    else if lowerPageTextTrimmed.length < MIN_TEXT_LENGTH_FOR_CONTENT then
      some "Skipped (too short for MCQs/Notes)."
    else
      none

/-! ### Per-page generation flow (`src/ai/flows/generate-mcqs-for-page.ts`)

The flow's output schema is `{ mcqs: McqSchema[] }` with no length bound on
the array; the "exactly 5" requirement lives only in the prompt text.  The
flow body returns the prompt output when `output && Array.isArray(output.mcqs)`
holds and otherwise substitutes `{ mcqs: [] }`.  The prompt's result is
modelled as `Option (Option (List Mcq))`: `none` when the model produced no
usable output object, `some none` when the object lacked an `mcqs` array. -/

/-- `generateMcqsForPageFlow` from `generate-mcqs-for-page.ts`, as a function
of the prompt's (sanitised) output. -/
def generateMcqsForPageFlow (promptOutput : Option (Option (List Mcq))) : List Mcq :=
  match promptOutput with
  | some (some l) => l
  | _ => []

/-! ### Ingestion orchestrator (`onSubmit` in `pdf-upload-form.tsx`)

The sequential page loop.  The external generator call for each page is a
suspension point; its behaviour is part of the environment: it either throws
(the `catch (pageError)` path) or returns a value.  The returned value is
modelled loosely, as the code validates it dynamically: the whole result may
be absent, and each of its `mcqs` / `pageNotes` fields may be absent. -/

/-- The (dynamically validated) value returned by a `generateMcqsForPage`
call: `mcqs` is `none` when the field is missing, `pageNotes` is `none` when
the field is missing (an empty string is also treated as missing by the
code's truthiness test, which is modelled at the use site). -/
structure GenOutput where
  mcqs : Option (List Mcq)
  pageNotes : Option String
deriving DecidableEq

/-- Behaviour of the generator call for one page. -/
inductive GenCall where
  | throws (msg : String)
  | returns (result : Option GenOutput)
deriving DecidableEq

/-- The environment of one ingestion run: the extracted text of each page
and the generator's behaviour on each page (pages are 1-based). -/
structure IngestEnv where
  pageText : Nat → List Char
  gen : Nat → GenCall

/-- The loop state of `onSubmit`: the accumulators `allMcqs`, `allNotes`,
`pageErrors` (page number paired with the message pushed for it) and
`pagesSkipped`.  `persistedDuringLoop` records every `saveQuiz` call made
so far; the loop body makes none, which the development proves. -/
structure IngestState where
  allMcqs : List Mcq
  allNotes : List String
  pageErrors : List (Nat × String)
  pagesSkipped : Nat
  persistedDuringLoop : List QuizRecord

/-- The state at the top of `onSubmit`, before the loop. -/
def initIngestState : IngestState :=
  { allMcqs := [], allNotes := [], pageErrors := [], pagesSkipped := 0,
    persistedDuringLoop := [] }

/-- One iteration of the page loop of `onSubmit` (second revision of
`pdf-upload-form.tsx`): run the three skip checks; otherwise call the
generator and, on a returned value, accumulate the MCQs when
`result && result.mcqs && result.mcqs.length > 0` and the notes when
`result && result.pageNotes` (truthy), pushing the corresponding
`pageErrors` entries otherwise.  A thrown call records one entry. -/
def processPage (env : IngestEnv) (numPages : Nat) (st : IngestState) (i : Nat) :
    IngestState :=
  match skipCheck (env.pageText i) i numPages with
  | some msg =>
    { st with pageErrors := st.pageErrors ++ [(i, msg)],
              pagesSkipped := st.pagesSkipped + 1 }
  | none =>
    match env.gen i with
    | .throws msg => { st with pageErrors := st.pageErrors ++ [(i, msg)] }
    | .returns result =>
      let mcqsField : Option (List Mcq) :=
        match result with
        | some out => out.mcqs
        | none => none
      let st1 :=
        match mcqsField with
        | some l =>
          if 0 < l.length then { st with allMcqs := st.allMcqs ++ l }
          else { st with pageErrors := st.pageErrors ++ [(i, "No MCQs returned by AI.")] }
        | none => { st with pageErrors := st.pageErrors ++ [(i, "No MCQs returned by AI.")] }
      let notesField : Option String :=
        match result with
        | some out => out.pageNotes
        | none => none
      match notesField with
      | some s =>
        if s = "" then
          { st1 with pageErrors := st1.pageErrors ++ [(i, "No Notes returned by AI.")] }
        else
          { st1 with allNotes := st1.allNotes ++ ["Page " ++ toString i ++ ":\n" ++ s] }
      | none =>
        { st1 with pageErrors := st1.pageErrors ++ [(i, "No Notes returned by AI.")] }

/-- The full page loop `for (let i = 1; i <= numPages; i++)`. -/
def runPages (env : IngestEnv) (numPages : Nat) : IngestState :=
  (List.range' 1 numPages).foldl (processPage env numPages) initIngestState

/-- `saveQuiz` from `src/lib/quiz-store.ts`: the document it persists.
`pdfName || null`, `notes || null` and `pdfDataUri || null` map JavaScript
falsiness (absent value or empty string) to `null`. -/
def saveQuiz (subject : String) (mcqs : List Mcq) (pdfName : String)
    (notes : String) (pdfDataUri : Option String) : QuizRecord :=
  { subject := subject, mcqs := mcqs,
    pdfName := if pdfName = "" then none else some pdfName,
    notes := if notes = "" then none else some notes,
    pdfDataUri :=
      match pdfDataUri with
      | some s => if s = "" then none else some s
      | none => none }

/-- Outcome of one ingestion run after the loop: either one persisted quiz
(together with the page-error list shown to the user) or the fatal
"no content" failure, which persists nothing. -/
inductive IngestOutcome where
  | success (quiz : QuizRecord) (pageErrors : List (Nat × String))
  | noContent (message : String) (pageErrors : List (Nat × String))
deriving DecidableEq

/-- The quizzes persisted by an ingestion outcome. -/
def persistedQuizzes : IngestOutcome → List QuizRecord
  | .success q _ => [q]
  | .noContent _ _ => []

/-- The "Generation Failed" toast message of the zero-yield branch
(distinct from the extraction-failure `An error occurred: ...` message). -/
def noContentMessage : String := "Could not generate any MCQs from the PDF."

/-- The tail of `onSubmit` after the loop: join the notes with the divider,
then either persist exactly one quiz via `saveQuiz` (when `allMcqs.length > 0`)
or fail with the distinct no-content message. -/
def ingest (env : IngestEnv) (numPages : Nat) (subject pdfName uri : String) :
    IngestOutcome :=
  let st := runPages env numPages
  let combinedNotes := String.intercalate "\n\n---\n\n" st.allNotes
  if 0 < st.allMcqs.length then
    .success (saveQuiz subject st.allMcqs pdfName combinedNotes (some uri)) st.pageErrors
  else
    .noContent noContentMessage st.pageErrors

/-! ### Best-subset curator (`generate-best-mcqs`, two revisions)

The repository contains two revisions of `generateBestMcqs`.  The first
asks the model for full MCQ objects; the second asks only for indices into
the pool and filters invalid pool entries first.  Each revision's wrapper
either short-circuits (no external call) or hands a pool to its flow; the
flow's external call is again a suspension point whose response is passed
explicitly.  The random shuffle of the fallback
(`[...allMcqs].sort(() => 0.5 - Math.random())`) is modelled by passing the
shuffled list as an argument constrained to be a permutation of the pool. -/

/-- What a curator wrapper does: either finish with a selection (no external
call is made) or invoke the flow's external call on the given pool with the
given desired count. -/
inductive CurateStep (α : Type) where
  | done (selectedMcqs : List α)
  | callExternal (pool : List α) (desiredCount : Nat)
deriving DecidableEq

/-- A dynamic (pre-validation) JSON-ish field value, as the index-returning
revision's validity filter inspects it. -/
inductive JVal where
  | str (s : String)
  | num (n : Int)
deriving DecidableEq

/-- An MCQ as it arrives from the store before validation: every field may
be missing (`none`), and present fields may have either primitive type. -/
structure RawMcq where
  question : Option JVal
  options : Option (List JVal)
  correctAnswerIndex : Option JVal
  explanation : Option JVal
deriving DecidableEq

/-- JavaScript truthiness for the modelled values (`""` and `0` are falsy). -/
def jTruthy : JVal → Bool
  | .str s => !(s = "")
  | .num n => !(n = 0)

/-- `typeof v === 'string'`. -/
def jIsString : JVal → Bool
  | .str _ => true
  | .num _ => false

/-- `typeof v === 'number'`. -/
def jIsNumber : JVal → Bool
  | .str _ => false
  | .num _ => true

/-- The validity filter of the index-returning `generateBestMcqs`:
`mcq.question && mcq.options && Array.isArray(mcq.options) &&
mcq.options.every(opt => typeof opt === 'string') &&
mcq.correctAnswerIndex !== undefined && typeof mcq.correctAnswerIndex === 'number' &&
mcq.explanation`. -/
def isValidMcq (m : RawMcq) : Bool :=
  (match m.question with | some v => jTruthy v | none => false) &&
  (match m.options with | some l => l.all jIsString | none => false) &&
  (match m.correctAnswerIndex with | some v => jIsNumber v | none => false) &&
  (match m.explanation with | some v => jTruthy v | none => false)

namespace ObjectVariant

/-- The wrapper `generateBestMcqs` of the first (object-returning) revision:
return the pool unchanged when `allMcqs.length <= desiredCount`, otherwise
invoke the flow. -/
def generateBestMcqs {α : Type} (allMcqs : List α) (desiredCount : Nat) :
    CurateStep α :=
  if allMcqs.length ≤ desiredCount then .done allMcqs
  else .callExternal allMcqs desiredCount

end ObjectVariant

namespace IndexVariant

/-- The wrapper `generateBestMcqs` of the second (index-returning) revision:
filter out invalid MCQs, return `[]` for an all-invalid pool, return the
filtered pool when it is small enough, else invoke the flow with the
filtered pool and `effectiveDesiredCount = min(validAllMcqs.length,
desiredCount)`. -/
def generateBestMcqs (allMcqs : List RawMcq) (desiredCount : Nat) :
    CurateStep RawMcq :=
  let validAllMcqs := allMcqs.filter isValidMcq
  if validAllMcqs.length = 0 then .done []
  else
    let effectiveDesiredCount := min validAllMcqs.length desiredCount
    if validAllMcqs.length ≤ desiredCount then .done validAllMcqs
    else .callExternal validAllMcqs effectiveDesiredCount

/-- The index-validation loop of `generateBestMcqsFlow`: keep, in returned
order, the pool element at each returned index with `0 <= index < length`,
silently dropping the others. -/
def selectValidIndices {α : Type} (allMcqs : List α) (idxs : List Int) : List α :=
  idxs.filterMap (fun i => if i < 0 then none else allMcqs[i.toNat]?)

/-- `generateBestMcqsFlow` of the index-returning revision, as a function of
the external call's response (`none`: missing output or `selectedIndices`
not an array — the fallback path) and of the fallback shuffle. -/
def generateBestMcqsFlow {α : Type} (allMcqs : List α) (desiredCount : Nat)
    (response : Option (List Int)) (shuffled : List α) : List α :=
  if allMcqs.length ≤ desiredCount then allMcqs
  else
    match response with
    | some idxs => (selectValidIndices allMcqs idxs).take desiredCount
    | none => shuffled.take desiredCount

end IndexVariant

/-! ### Quiz session (`src/components/quiz-interface.tsx`) -/

/-- `AnswerStatus` from `quiz-interface.tsx`. -/
inductive AnswerStatus where
  | unanswered
  | correct
  | incorrect
deriving DecidableEq

/-- The component state of `QuizInterface` that the session handlers touch,
plus the persisted attempts store (`saveQuizAttempt` appends to it; the
success path of persistence is modelled). -/
structure SessionState where
  currentQuestionIndex : Nat
  selectedAnswers : List (Option Nat)
  answerStatuses : List AnswerStatus
  isSubmitted : List Bool
  quizFinished : Bool
  finalAttempt : Option QuizAttempt
  elaboratedExplanations : Nat → Option String
  isElaborating : Nat → Bool
  attempts : List QuizAttempt

/-- `finishQuiz` from `quiz-interface.tsx` (success path of
`saveQuizAttempt`): score the statuses, persist one attempt, mark the
session finished. -/
def finishQuiz (quiz : Quiz) (st : SessionState) : SessionState :=
  let score := (st.answerStatuses.filter (fun s => s == AnswerStatus.correct)).length
  let attempt : QuizAttempt :=
    { quizId := quiz.id, answers := st.selectedAnswers, score := score,
      totalQuestions := quiz.mcqs.length }
  { st with finalAttempt := some attempt, quizFinished := true,
            attempts := st.attempts ++ [attempt] }

/-- `handleSubmitAnswer` from `quiz-interface.tsx`: reject when no option is
selected for the current question; otherwise lock the slot in, compute its
correctness against `currentMcq.correctAnswerIndex`, and auto-finalize via
`finishQuiz` when every slot is now submitted. -/
def handleSubmitAnswer (quiz : Quiz) (st : SessionState) : SessionState :=
  match st.selectedAnswers.getD st.currentQuestionIndex none with
  | none => st
  | some sel =>
    let newIsSubmitted := st.isSubmitted.set st.currentQuestionIndex true
    let isCorrect :=
      sel = (quiz.mcqs.getD st.currentQuestionIndex default).correctAnswerIndex
    let newAnswerStatuses :=
      st.answerStatuses.set st.currentQuestionIndex
        (if isCorrect then .correct else .incorrect)
    let st1 := { st with isSubmitted := newIsSubmitted,
                         answerStatuses := newAnswerStatuses }
    if newIsSubmitted.all (fun s => s == true) then finishQuiz quiz st1 else st1

/-- `handleRetakeQuiz` from `quiz-interface.tsx`: reset every slot, clear the
session-only elaboration cache, go back to question 1.  The attempts store
is not touched. -/
def handleRetakeQuiz (quiz : Quiz) (st : SessionState) : SessionState :=
  { currentQuestionIndex := 0,
    selectedAnswers := List.replicate quiz.mcqs.length none,
    answerStatuses := List.replicate quiz.mcqs.length .unanswered,
    isSubmitted := List.replicate quiz.mcqs.length false,
    quizFinished := false,
    finalAttempt := none,
    elaboratedExplanations := fun _ => none,
    isElaborating := fun _ => false,
    attempts := st.attempts }

/-! ### The skip rules exactly as the claim states them -/

/-- Modelled from the spec: the classifier rules as the specification words
them, including its "within the first 5 or last 5 pages" window (the last
five pages of an `N`-page document are pages `N-4 .. N`).  Used to compare
the specification's wording with the code's `isLikelyNonContentPage`
pipeline, whose window test is `pageNumber >= totalPages - 5`. -/
def skipPerClaimC8 (text : List Char) (i totalPages : Nat) : Bool :=
  let tl := trimChars (toLowerChars text)
  (trimChars text).isEmpty ||
  ((decide (i ≤ 5) || decide (totalPages - 4 ≤ i)) &&
    NON_CONTENT_PAGE_TITLES.any (fun t => containsSub t.toList tl) &&
    decide (tl.length < MIN_TEXT_LENGTH_FOR_CONTENT + 200)) ||
  NON_CONTENT_PAGE_TITLES.any (fun t =>
    leadsWith t.toList tl && decide (tl.length < t.length + 150)) ||
  (matchesHeadingPattern tl && decide (tl.length < 150)) ||
  decide (tl.length < MIN_TEXT_LENGTH_FOR_CONTENT)

/-! ### Concrete fixtures used by counterexamples and witnesses -/

/-- A complete, well-formed MCQ. -/
def mcqA : Mcq :=
  { question := "qA", options := ["a", "b", "c", "d"],
    correctAnswerIndex := 0, explanation := "eA" }

/-- A second complete, well-formed MCQ. -/
def mcqB : Mcq :=
  { question := "qB", options := ["a", "b", "c", "d"],
    correctAnswerIndex := 1, explanation := "eB" }

/-- A content-worthy page text: 400 non-whitespace characters, no structural
marker, no heading pattern. -/
def pageTextB : List Char := List.replicate 400 'b'

/-- Page 15 of a 20-page document: 390 filler characters followed by a
structural marker, 408 characters in all (so not "too short", and inside
the code's `pageNumber >= totalPages - 5` window but not within the last
five pages). -/
def pageC8 : List Char := List.replicate 390 'a' ++ " table of contents".toList

/-- Ingestion environment whose generator returns `{ mcqs: [] }` with no
notes on every page. -/
def envEmptyGen : IngestEnv :=
  { pageText := fun _ => pageTextB,
    gen := fun _ => .returns (some { mcqs := some [], pageNotes := none }) }

/-- Ingestion environment whose generator returns a two-MCQ batch (with
notes) on every page. -/
def envTwoBatch : IngestEnv :=
  { pageText := fun _ => pageTextB,
    gen := fun _ => .returns (some { mcqs := some [mcqA, mcqB], pageNotes := some "n" }) }

/-- Ingestion environment whose generator succeeds with a five-MCQ batch
and notes on every page. -/
def envGood : IngestEnv :=
  { pageText := fun _ => pageTextB,
    gen := fun _ => .returns (some { mcqs := some [mcqA, mcqA, mcqA, mcqA, mcqA],
                                     pageNotes := some "n" }) }

/-- Ingestion environment whose generator throws on every page. -/
def envThrow : IngestEnv :=
  { pageText := fun _ => pageTextB,
    gen := fun _ => .throws "AI generation failed" }

/-- A raw MCQ whose `explanation` field is missing (all other fields valid). -/
def badMcq : RawMcq :=
  { question := some (.str "q"),
    options := some [.str "a", .str "b", .str "c", .str "d"],
    correctAnswerIndex := some (.num 0), explanation := none }

/-- A fully valid raw MCQ. -/
def rawA : RawMcq :=
  { question := some (.str "qA"),
    options := some [.str "a", .str "b", .str "c", .str "d"],
    correctAnswerIndex := some (.num 0), explanation := some (.str "eA") }

/-- A second fully valid raw MCQ. -/
def rawB : RawMcq :=
  { question := some (.str "qB"),
    options := some [.str "a", .str "b", .str "c", .str "d"],
    correctAnswerIndex := some (.num 1), explanation := some (.str "eB") }

/-- A one-question quiz for concrete session runs. -/
def quizW : Quiz := { id := "q1", subject := "S", mcqs := [mcqA] }

/-- A session on `quizW` whose only slot has option 0 selected but not yet
submitted. -/
def stW : SessionState :=
  { currentQuestionIndex := 0, selectedAnswers := [some 0],
    answerStatuses := [.unanswered], isSubmitted := [false],
    quizFinished := false, finalAttempt := none,
    elaboratedExplanations := fun _ => none, isElaborating := fun _ => false,
    attempts := [] }

/-- Pointwise sum of two loop states; `processPage` only ever appends to the
state, which `processPage_delta` below makes precise. -/
def stAppend (a b : IngestState) : IngestState :=
  { allMcqs := a.allMcqs ++ b.allMcqs,
    allNotes := a.allNotes ++ b.allNotes,
    pageErrors := a.pageErrors ++ b.pageErrors,
    pagesSkipped := a.pagesSkipped + b.pagesSkipped,
    persistedDuringLoop := a.persistedDuringLoop ++ b.persistedDuringLoop }

end Quizify

namespace Quizify

/-! ### Lemmas: JavaScript string primitives -/

lemma toNat_charOfNat_of_lt {n : Nat} (h : n < 55296) : (Char.ofNat n).toNat = n := by
  have hv : n.isValidChar := Or.inl h
  simp only [Char.ofNat, hv, dif_pos, Char.ofNatAux, Char.toNat, UInt32.ofNat']
  simp [UInt32.toNat]

lemma char_le_iff_toNat {a b : Char} : a ≤ b ↔ a.toNat ≤ b.toNat := by
  rw [Char.le_def]
  exact ⟨fun h => h, fun h => h⟩

lemma toNat_bounds {c : Char} (h : 'A' ≤ c ∧ c ≤ 'Z') : 65 ≤ c.toNat ∧ c.toNat ≤ 90 :=
  ⟨char_le_iff_toNat.mp h.1, char_le_iff_toNat.mp h.2⟩

lemma not_upper_of_toNat {c : Char} (h : 90 < c.toNat) : ¬ ('A' ≤ c ∧ c ≤ 'Z') := by
  intro hcon
  have := toNat_bounds hcon
  omega

lemma charToLower_idem (c : Char) : charToLower (charToLower c) = charToLower c := by
  unfold charToLower
  by_cases h : 'A' ≤ c ∧ c ≤ 'Z'
  · simp only [if_pos h]
    have hb := toNat_bounds h
    have ht : (Char.ofNat (c.toNat + 32)).toNat = c.toNat + 32 :=
      toNat_charOfNat_of_lt (by omega)
    rw [if_neg (not_upper_of_toNat (by omega))]
  · simp only [if_neg h]

lemma char_ne_of_toNat {a b : Char} (h : a.toNat ≠ b.toNat) : (a == b) = false := by
  rw [beq_eq_false_iff_ne]
  intro hcon
  exact h (by rw [hcon])

lemma isJsWs_eq_false {c : Char} (h1 : 33 ≤ c.toNat) (h2 : c.toNat ≠ 160) :
    isJsWs c = false := by
  unfold isJsWs
  have t1 : (' ' : Char).toNat = 32 := by decide
  have t2 : ('\t' : Char).toNat = 9 := by decide
  have t3 : ('\n' : Char).toNat = 10 := by decide
  have t4 : ('\r' : Char).toNat = 13 := by decide
  have t5 : (Char.ofNat 11).toNat = 11 := by decide
  have t6 : (Char.ofNat 12).toNat = 12 := by decide
  have t7 : (Char.ofNat 160).toNat = 160 := by decide
  rw [char_ne_of_toNat (by omega), char_ne_of_toNat (by omega),
      char_ne_of_toNat (by omega), char_ne_of_toNat (by omega),
      char_ne_of_toNat (by omega), char_ne_of_toNat (by omega),
      char_ne_of_toNat (by omega)]
  rfl

lemma isJsWs_charToLower (c : Char) : isJsWs (charToLower c) = isJsWs c := by
  unfold charToLower
  by_cases h : 'A' ≤ c ∧ c ≤ 'Z'
  · simp only [if_pos h]
    have hb := toNat_bounds h
    have ht : (Char.ofNat (c.toNat + 32)).toNat = c.toNat + 32 :=
      toNat_charOfNat_of_lt (by omega)
    rw [isJsWs_eq_false (by omega) (by omega), isJsWs_eq_false (by omega) (by omega)]
  · simp only [if_neg h]

lemma toLowerChars_idem (l : List Char) :
    toLowerChars (toLowerChars l) = toLowerChars l := by
  unfold toLowerChars
  rw [List.map_map]
  congr 1
  funext c
  exact charToLower_idem c

lemma trimChars_eq_rdrop (l : List Char) :
    trimChars l = List.rdropWhile isJsWs (l.dropWhile isJsWs) := by
  simp [trimChars, List.rdropWhile]

lemma trimChars_toLowerChars (l : List Char) :
    trimChars (toLowerChars l) = toLowerChars (trimChars l) := by
  have hcomp : isJsWs ∘ charToLower = isJsWs := by
    funext c
    exact isJsWs_charToLower c
  unfold trimChars toLowerChars
  rw [List.dropWhile_map, hcomp, ← List.map_reverse, List.dropWhile_map, hcomp,
    ← List.map_reverse]

lemma dropWhile_trimChars (l : List Char) :
    (trimChars l).dropWhile isJsWs = trimChars l := by
  rw [trimChars_eq_rdrop]
  rw [List.dropWhile_eq_self_iff]
  intro hl
  have hp : List.rdropWhile isJsWs (l.dropWhile isJsWs) <+: l.dropWhile isJsWs :=
    List.rdropWhile_prefix _ _
  have hlen : 0 < (l.dropWhile isJsWs).length :=
    Nat.lt_of_lt_of_le hl (List.IsPrefix.length_le hp)
  have hget := @List.IsPrefix.getElem _ _ _ hp 0 hl
  simp only [List.get_eq_getElem, hget]
  have := List.dropWhile_get_zero_not isJsWs l hlen
  simpa using this

lemma trimChars_idem (l : List Char) : trimChars (trimChars l) = trimChars l := by
  conv_lhs => rw [trimChars_eq_rdrop (trimChars l)]
  rw [dropWhile_trimChars, trimChars_eq_rdrop, List.rdropWhile_idempotent]

lemma trimLower_idem (l : List Char) :
    trimChars (toLowerChars (trimChars (toLowerChars l))) = trimChars (toLowerChars l) := by
  rw [← trimChars_toLowerChars (toLowerChars l), toLowerChars_idem, trimChars_idem]

end Quizify

namespace Quizify

/-! ### Lemmas: the page loop only appends to its state -/

lemma stAppend_init_left (b : IngestState) : stAppend initIngestState b = b := by
  simp [stAppend, initIngestState]

lemma stAppend_assoc (a b c : IngestState) :
    stAppend (stAppend a b) c = stAppend a (stAppend b c) := by
  simp [stAppend, Nat.add_assoc]

lemma processPage_delta (env : IngestEnv) (N : Nat) (st : IngestState) (i : Nat) :
    processPage env N st i = stAppend st (processPage env N initIngestState i) := by
  unfold processPage
  cases hsk : skipCheck (env.pageText i) i N with
  | some msg => simp [stAppend, initIngestState]
  | none =>
    cases hg : env.gen i with
    | throws msg => simp [stAppend, initIngestState]
    | returns result =>
      cases result with
      | none => simp [stAppend, initIngestState]
      | some out =>
        cases hm : out.mcqs with
        | none =>
          cases hn : out.pageNotes with
          | none => simp [hm, hn, stAppend, initIngestState]
          | some s =>
            by_cases hs : s = "" <;> simp [hm, hn, hs, stAppend, initIngestState]
        | some l =>
          cases hn : out.pageNotes with
          | none =>
            by_cases hl : 0 < l.length <;> simp [hm, hn, hl, stAppend, initIngestState]
          | some s =>
            by_cases hl : 0 < l.length <;> by_cases hs : s = "" <;>
              simp [hm, hn, hl, hs, stAppend, initIngestState]

lemma foldl_processPage_append (env : IngestEnv) (N : Nat) :
    ∀ (l : List Nat) (st : IngestState),
      l.foldl (processPage env N) st =
        stAppend st (l.foldl (processPage env N) initIngestState) := by
  intro l
  induction l with
  | nil => intro st; simp [stAppend, initIngestState]
  | cons i t ih =>
    intro st
    rw [List.foldl_cons, List.foldl_cons, ih (processPage env N st i),
      ih (processPage env N initIngestState i), processPage_delta env N st i,
      stAppend_assoc]

lemma processPage_persistedDuringLoop (env : IngestEnv) (N : Nat) (st : IngestState)
    (i : Nat) : (processPage env N st i).persistedDuringLoop = st.persistedDuringLoop := by
  unfold processPage
  cases hsk : skipCheck (env.pageText i) i N with
  | some msg => rfl
  | none =>
    cases hg : env.gen i with
    | throws msg => rfl
    | returns result =>
      cases result with
      | none => rfl
      | some out =>
        cases hm : out.mcqs with
        | none =>
          cases hn : out.pageNotes with
          | none => simp [hm, hn]
          | some s => by_cases hs : s = "" <;> simp [hm, hn, hs]
        | some l =>
          cases hn : out.pageNotes with
          | none => by_cases hl : 0 < l.length <;> simp [hm, hn, hl]
          | some s =>
            by_cases hl : 0 < l.length <;> by_cases hs : s = "" <;> simp [hm, hn, hl, hs]

lemma runPages_persistedDuringLoop (env : IngestEnv) (n : Nat) :
    (runPages env n).persistedDuringLoop = [] := by
  have key : ∀ (l : List Nat) (st : IngestState),
      (l.foldl (processPage env n) st).persistedDuringLoop = st.persistedDuringLoop := by
    intro l
    induction l with
    | nil => intro st; rfl
    | cons i t ih =>
      intro st
      rw [List.foldl_cons, ih, processPage_persistedDuringLoop]
  exact key _ _

/-- Closed form of the loop: every accumulator is the concatenation, in page
order, of the per-page contributions. -/
lemma runPages_closed (env : IngestEnv) (n : Nat) :
    runPages env n =
      { allMcqs := (List.range' 1 n).flatMap
          (fun i => (processPage env n initIngestState i).allMcqs),
        allNotes := (List.range' 1 n).flatMap
          (fun i => (processPage env n initIngestState i).allNotes),
        pageErrors := (List.range' 1 n).flatMap
          (fun i => (processPage env n initIngestState i).pageErrors),
        pagesSkipped := ((List.range' 1 n).map
          (fun i => (processPage env n initIngestState i).pagesSkipped)).sum,
        persistedDuringLoop := [] } := by
  have key : ∀ (l : List Nat),
      l.foldl (processPage env n) initIngestState =
        { allMcqs := l.flatMap (fun i => (processPage env n initIngestState i).allMcqs),
          allNotes := l.flatMap (fun i => (processPage env n initIngestState i).allNotes),
          pageErrors := l.flatMap (fun i => (processPage env n initIngestState i).pageErrors),
          pagesSkipped := (l.map (fun i => (processPage env n initIngestState i).pagesSkipped)).sum,
          persistedDuringLoop := [] } := by
    intro l
    induction l with
    | nil => rfl
    | cons i t ih =>
      rw [List.foldl_cons, foldl_processPage_append env n t, ih]
      have hp : (processPage env n initIngestState i).persistedDuringLoop = [] := by
        rw [processPage_persistedDuringLoop]
        rfl
      simp [stAppend, hp]
  exact key _

end Quizify

namespace Quizify

set_option maxRecDepth 10000

/-! ### Claim theorems -/

/-- C1: after the page loop, if the accumulated MCQ count is zero the
ingestion fails with the distinct no-content message and persists nothing;
otherwise exactly one quiz is persisted, containing all accumulated MCQs,
the joined notes and the original PDF data URI.  Nothing is persisted by
the loop body itself (for any page count, the loop's persistence log is
empty). -/
theorem C1_zero_yield_fails_else_one_quiz_persisted
    (env : IngestEnv) (n : Nat) (subject pdfName uri : String) (huri : uri ≠ "") :
    ((runPages env n).allMcqs = [] →
      ingest env n subject pdfName uri =
        .noContent noContentMessage (runPages env n).pageErrors ∧
      persistedQuizzes (ingest env n subject pdfName uri) = []) ∧
    ((runPages env n).allMcqs ≠ [] →
      persistedQuizzes (ingest env n subject pdfName uri) =
        [{ subject := subject,
           mcqs := (runPages env n).allMcqs,
           pdfName := if pdfName = "" then none else some pdfName,
           notes :=
             if String.intercalate "\n\n---\n\n" (runPages env n).allNotes = "" then none
             else some (String.intercalate "\n\n---\n\n" (runPages env n).allNotes),
           pdfDataUri := some uri }]) ∧
    (∀ k : Nat, (runPages env k).persistedDuringLoop = []) := by
  refine ⟨?_, ?_, fun k => runPages_persistedDuringLoop env k⟩
  · intro h
    constructor
    · simp [ingest, h]
    · simp [ingest, h, persistedQuizzes]
  · intro h
    have hlen : 0 < (runPages env n).allMcqs.length := List.length_pos.mpr h
    simp [ingest, hlen, persistedQuizzes, saveQuiz, huri]

/-- Witness for C1 at a concrete one-page run that yields five MCQs. -/
theorem C1_zero_yield_fails_else_one_quiz_persisted_witness :
    ("data:x" ≠ "") ∧
    (((runPages envGood 1).allMcqs = [] →
      ingest envGood 1 "Subject" "doc.pdf" "data:x" =
        .noContent noContentMessage (runPages envGood 1).pageErrors ∧
      persistedQuizzes (ingest envGood 1 "Subject" "doc.pdf" "data:x") = []) ∧
    ((runPages envGood 1).allMcqs ≠ [] →
      persistedQuizzes (ingest envGood 1 "Subject" "doc.pdf" "data:x") =
        [{ subject := "Subject",
           mcqs := (runPages envGood 1).allMcqs,
           pdfName := if "doc.pdf" = "" then none else some "doc.pdf",
           notes :=
             if String.intercalate "\n\n---\n\n" (runPages envGood 1).allNotes = "" then none
             else some (String.intercalate "\n\n---\n\n" (runPages envGood 1).allNotes),
           pdfDataUri := some "data:x" }]) ∧
    (∀ k : Nat, (runPages envGood k).persistedDuringLoop = [])) :=
  ⟨by decide,
   C1_zero_yield_fails_else_one_quiz_persisted envGood 1 "Subject" "doc.pdf" "data:x"
     (by decide)⟩

/-- C9: the retake action resets every slot to unanswered, clears the
session-only elaborated-explanation cache, returns to question 1, and leaves
the attempts store untouched (same list, hence unchanged count). -/
theorem C9_retake_resets_slots_and_keeps_attempts
    (quiz : Quiz) (st : SessionState) :
    (handleRetakeQuiz quiz st).currentQuestionIndex = 0 ∧
    (handleRetakeQuiz quiz st).selectedAnswers = List.replicate quiz.mcqs.length none ∧
    (handleRetakeQuiz quiz st).answerStatuses =
      List.replicate quiz.mcqs.length AnswerStatus.unanswered ∧
    (handleRetakeQuiz quiz st).isSubmitted = List.replicate quiz.mcqs.length false ∧
    (handleRetakeQuiz quiz st).quizFinished = false ∧
    (∀ k : Nat, (handleRetakeQuiz quiz st).elaboratedExplanations k = none) ∧
    (handleRetakeQuiz quiz st).attempts = st.attempts ∧
    (handleRetakeQuiz quiz st).attempts.length = st.attempts.length := by
  refine ⟨rfl, rfl, rfl, rfl, rfl, fun k => rfl, rfl, rfl⟩

end Quizify

namespace Quizify

set_option maxRecDepth 10000

/-- C4 counterexample: the index-returning revision of `generateBestMcqs`
does not return a one-element pool unchanged when its only MCQ fails the
validity filter (missing `explanation`): it returns the empty selection
instead, although `pool.length <= desiredCount`. -/
theorem C4_counterexample_invalid_mcq_dropped :
    IndexVariant.generateBestMcqs [badMcq] 1 = CurateStep.done [] ∧
    IndexVariant.generateBestMcqs [badMcq] 1 ≠ CurateStep.done [badMcq] := by
  decide

/-- C4 (amended): for `pool.length <= desiredCount` the object-returning
revision returns the pool unchanged with no external call, and the
index-returning revision does the same for every pool whose MCQs all pass
its validity filter; pools containing invalid MCQs are first silently
filtered (see the counterexample). -/
theorem C4_small_pool_returned_unchanged_no_external_call
    {α : Type} (pool1 : List α) (d1 : Nat) (pool2 : List RawMcq) (d2 : Nat)
    (h1 : pool1.length ≤ d1)
    (h2 : ∀ m ∈ pool2, isValidMcq m = true)
    (h3 : pool2.length ≤ d2) :
    ObjectVariant.generateBestMcqs pool1 d1 = CurateStep.done pool1 ∧
    IndexVariant.generateBestMcqs pool2 d2 = CurateStep.done pool2 := by
  constructor
  · simp [ObjectVariant.generateBestMcqs, h1]
  · have hfil : pool2.filter isValidMcq = pool2 := List.filter_eq_self.mpr h2
    unfold IndexVariant.generateBestMcqs
    rw [hfil]
    by_cases hz : pool2.length = 0
    · have : pool2 = [] := List.length_eq_zero.mp hz
      simp [this]
    · simp [hz, h3]

/-- Witness for C4 at a two-element valid pool and desired count 2. -/
theorem C4_small_pool_returned_unchanged_no_external_call_witness :
    (([10, 20] : List Nat).length ≤ 2 ∧
     (∀ m ∈ [rawA, rawB], isValidMcq m = true) ∧
     ([rawA, rawB].length ≤ 2)) ∧
    (ObjectVariant.generateBestMcqs ([10, 20] : List Nat) 2 = CurateStep.done [10, 20] ∧
     IndexVariant.generateBestMcqs [rawA, rawB] 2 = CurateStep.done [rawA, rawB]) :=
  ⟨⟨by decide, by decide, by decide⟩,
   C4_small_pool_returned_unchanged_no_external_call [10, 20] 2 [rawA, rawB] 2
     (by decide) (by decide) (by decide)⟩

/-- C10: the index-returning `generateBestMcqs` silently filters invalid
MCQs before any counting: an all-invalid pool yields the empty selection
without error, and when the valid MCQs number at most `desiredCount` the
result is exactly the filtered valid list (not the original pool). -/
theorem C10_invalid_mcqs_silently_filtered (pool : List RawMcq) (d : Nat) :
    ((∀ m ∈ pool, isValidMcq m = false) →
      IndexVariant.generateBestMcqs pool d = CurateStep.done []) ∧
    ((pool.filter isValidMcq).length ≤ d →
      IndexVariant.generateBestMcqs pool d =
        CurateStep.done (pool.filter isValidMcq)) := by
  constructor
  · intro h
    have hfil : pool.filter isValidMcq = [] := by
      rw [List.filter_eq_nil_iff]
      intro m hm
      rw [h m hm]
      simp
    unfold IndexVariant.generateBestMcqs
    rw [hfil]
    simp
  · intro h
    unfold IndexVariant.generateBestMcqs
    by_cases hz : (pool.filter isValidMcq).length = 0
    · have : pool.filter isValidMcq = [] := List.length_eq_zero.mp hz
      simp [this]
    · simp [hz, h]

/-- Witness for C10: an all-invalid pool and a mixed pool (one invalid, two
valid MCQs) below the desired count. -/
theorem C10_invalid_mcqs_silently_filtered_witness :
    (∀ m ∈ [badMcq], isValidMcq m = false) ∧
    IndexVariant.generateBestMcqs [badMcq] 5 = CurateStep.done [] ∧
    ([badMcq, rawA, rawB].filter isValidMcq).length ≤ 5 ∧
    IndexVariant.generateBestMcqs [badMcq, rawA, rawB] 5 =
      CurateStep.done ([badMcq, rawA, rawB].filter isValidMcq) :=
  ⟨by decide,
   (C10_invalid_mcqs_silently_filtered [badMcq] 5).1 (by decide),
   by decide,
   (C10_invalid_mcqs_silently_filtered [badMcq, rawA, rawB] 5).2 (by decide)⟩

end Quizify

namespace Quizify

set_option maxRecDepth 10000

lemma selectValidIndices_eq {α : Type} (l : List α) (dflt : α) (idxs : List Int) :
    IndexVariant.selectValidIndices l idxs =
      (idxs.filter (fun i => decide (0 ≤ i) && decide (i < (l.length : Int)))).map
        (fun i => l.getD i.toNat dflt) := by
  induction idxs with
  | nil => rfl
  | cons i t ih =>
    unfold IndexVariant.selectValidIndices at ih ⊢
    rw [List.filterMap_cons, List.filter_cons]
    by_cases hneg : i < 0
    · have hb : (decide (0 ≤ i) && decide (i < (l.length : Int))) = false := by
        have h1 : ¬ (0 ≤ i) := by omega
        simp [h1]
      simp only [if_pos hneg, hb, if_false, Bool.false_eq_true]
      exact ih
    · have h0 : 0 ≤ i := by omega
      by_cases hin : i < (l.length : Int)
      · have htn : i.toNat < l.length := by omega
        have hget : l[i.toNat]? = some (l.getD i.toNat dflt) := by
          rw [List.getElem?_eq_getElem htn, List.getD_eq_getElem?_getD,
            List.getElem?_eq_getElem htn]
          rfl
        have hb : (decide (0 ≤ i) && decide (i < (l.length : Int))) = true := by
          simp [h0, hin]
        simp only [if_neg hneg, hget, hb, if_true, List.map_cons]
        rw [ih]
      · have htn : l.length ≤ i.toNat := by omega
        have hget : l[i.toNat]? = none := List.getElem?_eq_none htn
        have hb : (decide (0 ≤ i) && decide (i < (l.length : Int))) = false := by
          simp [hin]
        simp only [if_neg hneg, hget, hb, if_false, Bool.false_eq_true]
        exact ih

lemma selectValidIndices_mem {α : Type} (l : List α) (idxs : List Int) :
    ∀ x ∈ IndexVariant.selectValidIndices l idxs, x ∈ l := by
  intro x hx
  unfold IndexVariant.selectValidIndices at hx
  rw [List.mem_filterMap] at hx
  obtain ⟨i, _, hfi⟩ := hx
  by_cases hneg : i < 0
  · simp [hneg] at hfi
  · simp only [if_neg hneg] at hfi
    exact List.getElem?_mem hfi

/-- C5: when the pool is larger than the desired count and the external
curator call returns an index list, the flow keeps exactly the pool
elements at the in-range indices (`0 <= i < pool.length`), in returned
order, truncated to at most `desiredCount`; out-of-range indices are
silently discarded, every returned element comes from the pool, and the
computation is total (the flow is a plain function, so no input makes it
fail). -/
theorem C5_flow_discards_invalid_indices_and_truncates {α : Type}
    (pool : List α) (d : Nat) (idxs : List Int) (shuffled : List α) (dflt : α)
    (hd : d < pool.length) :
    IndexVariant.generateBestMcqsFlow pool d (some idxs) shuffled =
      ((idxs.filter (fun i => decide (0 ≤ i) && decide (i < (pool.length : Int)))).map
        (fun i => pool.getD i.toNat dflt)).take d ∧
    (IndexVariant.generateBestMcqsFlow pool d (some idxs) shuffled).length ≤ d ∧
    (∀ x ∈ IndexVariant.generateBestMcqsFlow pool d (some idxs) shuffled, x ∈ pool) := by
  have hnle : ¬ (pool.length ≤ d) := by omega
  have hflow : IndexVariant.generateBestMcqsFlow pool d (some idxs) shuffled =
      (IndexVariant.selectValidIndices pool idxs).take d := by
    simp [IndexVariant.generateBestMcqsFlow, hnle]
  refine ⟨?_, ?_, ?_⟩
  · rw [hflow, selectValidIndices_eq pool dflt idxs]
  · rw [hflow, List.length_take]
    omega
  · intro x hx
    rw [hflow] at hx
    exact selectValidIndices_mem pool idxs x (List.mem_of_mem_take hx)

/-- Witness for C5: a three-element pool with indices `[2, -1, 5, 0]`. -/
theorem C5_flow_discards_invalid_indices_and_truncates_witness :
    (2 < ([10, 20, 30] : List Nat).length) ∧
    (IndexVariant.generateBestMcqsFlow ([10, 20, 30] : List Nat) 2
        (some [2, -1, 5, 0]) [30, 20, 10] =
      (([2, -1, 5, 0].filter
          (fun i => decide (0 ≤ i) && decide (i < (([10, 20, 30] : List Nat).length : Int)))).map
        (fun i => ([10, 20, 30] : List Nat).getD i.toNat 0)).take 2 ∧
    (IndexVariant.generateBestMcqsFlow ([10, 20, 30] : List Nat) 2
        (some [2, -1, 5, 0]) [30, 20, 10]).length ≤ 2 ∧
    (∀ x ∈ IndexVariant.generateBestMcqsFlow ([10, 20, 30] : List Nat) 2
        (some [2, -1, 5, 0]) [30, 20, 10], x ∈ ([10, 20, 30] : List Nat))) :=
  ⟨by decide,
   C5_flow_discards_invalid_indices_and_truncates [10, 20, 30] 2 [2, -1, 5, 0]
     [30, 20, 10] 0 (by decide)⟩

/-- C6 counterexample: with a two-element pool, desired count 1 and an
external result whose only index is out of range, the flow returns the
empty selection — it does not fall back to a random subset of size
`min(desiredCount, pool.length) = 1`. -/
theorem C6_counterexample_empty_after_validation_no_fallback :
    IndexVariant.generateBestMcqsFlow ([10, 20] : List Nat) 1 (some [5]) [20, 10] = [] ∧
    (IndexVariant.generateBestMcqsFlow ([10, 20] : List Nat) 1
        (some [5]) [20, 10]).length ≠ min 1 ([10, 20] : List Nat).length := by
  decide

/-- C6 (amended): the shuffle fallback fires exactly when the external
result is missing or its `selectedIndices` is not an array; in that case
the flow returns the first `desiredCount` elements of a permutation of the
pool — `min(desiredCount, pool.length)` elements, a slice of a permutation,
never padded, all drawn from the pool — so curation does not hard-fail.
When the result is a usable index array, even one that is empty or becomes
empty after validation, the flow returns the validated selection instead of
falling back. -/
theorem C6_fallback_is_shuffle_slice_only_on_missing_response {α : Type}
    (pool shuffled : List α) (d : Nat)
    (hd : d < pool.length) (hperm : shuffled.Perm pool) :
    IndexVariant.generateBestMcqsFlow pool d none shuffled = shuffled.take d ∧
    (IndexVariant.generateBestMcqsFlow pool d none shuffled).length = min d pool.length ∧
    (∀ x ∈ IndexVariant.generateBestMcqsFlow pool d none shuffled, x ∈ pool) ∧
    (∃ rest, IndexVariant.generateBestMcqsFlow pool d none shuffled ++ rest = shuffled) ∧
    (∀ idxs : List Int, IndexVariant.generateBestMcqsFlow pool d (some idxs) shuffled =
      (IndexVariant.selectValidIndices pool idxs).take d) := by
  have hnle : ¬ (pool.length ≤ d) := by omega
  have hflow : IndexVariant.generateBestMcqsFlow pool d none shuffled = shuffled.take d := by
    simp [IndexVariant.generateBestMcqsFlow, hnle]
  refine ⟨hflow, ?_, ?_, ?_, ?_⟩
  · rw [hflow, List.length_take, hperm.length_eq]
  · intro x hx
    rw [hflow] at hx
    exact hperm.mem_iff.mp (List.mem_of_mem_take hx)
  · exact ⟨shuffled.drop d, by rw [hflow, List.take_append_drop]⟩
  · intro idxs
    simp [IndexVariant.generateBestMcqsFlow, hnle]

/-- Witness for C6 with the pool `[1, 2, 3]`, the permutation `[3, 1, 2]`
and desired count 1. -/
theorem C6_fallback_is_shuffle_slice_only_on_missing_response_witness :
    (1 < ([1, 2, 3] : List Nat).length ∧ ([3, 1, 2] : List Nat).Perm [1, 2, 3]) ∧
    (IndexVariant.generateBestMcqsFlow ([1, 2, 3] : List Nat) 1 none [3, 1, 2] =
      ([3, 1, 2] : List Nat).take 1 ∧
    (IndexVariant.generateBestMcqsFlow ([1, 2, 3] : List Nat) 1 none [3, 1, 2]).length =
      min 1 ([1, 2, 3] : List Nat).length ∧
    (∀ x ∈ IndexVariant.generateBestMcqsFlow ([1, 2, 3] : List Nat) 1 none [3, 1, 2],
      x ∈ ([1, 2, 3] : List Nat)) ∧
    (∃ rest, IndexVariant.generateBestMcqsFlow ([1, 2, 3] : List Nat) 1 none [3, 1, 2] ++ rest =
      [3, 1, 2]) ∧
    (∀ idxs : List Int,
      IndexVariant.generateBestMcqsFlow ([1, 2, 3] : List Nat) 1 (some idxs) [3, 1, 2] =
        (IndexVariant.selectValidIndices ([1, 2, 3] : List Nat) idxs).take 1)) :=
  ⟨⟨by decide, by decide⟩,
   C6_fallback_is_shuffle_slice_only_on_missing_response [1, 2, 3] [3, 1, 2] 1
     (by decide) (by decide)⟩

end Quizify

namespace Quizify

set_option maxRecDepth 10000

/-- C2 counterexample: a content page whose generator returns the malformed
result `{ mcqs: [] }` (no notes) gets TWO page-error entries, not exactly
one: `No MCQs returned by AI.` and `No Notes returned by AI.`. -/
theorem C2_counterexample_two_entries_for_malformed_result :
    ((runPages envEmptyGen 1).pageErrors.filter (fun e => e.1 == 1)).length = 2 ∧
    (runPages envEmptyGen 1).pageErrors =
      [(1, "No MCQs returned by AI."), (1, "No Notes returned by AI.")] := by
  decide

lemma processPage_throw (env : IngestEnv) (N : Nat) (st : IngestState) (i : Nat)
    (msg : String) (hskip : skipCheck (env.pageText i) i N = none)
    (hthrow : env.gen i = .throws msg) :
    processPage env N st i = { st with pageErrors := st.pageErrors ++ [(i, msg)] } := by
  simp [processPage, hskip, hthrow]

lemma processPage_batch (env : IngestEnv) (N : Nat) (st : IngestState) (i : Nat)
    (l : List Mcq) (s : String) (hskip : skipCheck (env.pageText i) i N = none)
    (hret : env.gen i = .returns (some { mcqs := some l, pageNotes := some s }))
    (hl : 0 < l.length) (hs : s ≠ "") :
    processPage env N st i =
      { st with allMcqs := st.allMcqs ++ l,
                allNotes := st.allNotes ++ ["Page " ++ toString i ++ ":\n" ++ s] } := by
  simp [processPage, hskip, hret, hl, hs]

/-- C2 (amended): a page failure is non-fatal and the loop continues, but
the number of page-error entries depends on the failure shape: a thrown
generator call records exactly one entry for that page; a malformed/empty
returned result records one entry for the missing MCQs and a second one
when the notes are also missing (so two entries, not one).  Successful
pages' MCQs are accumulated in page order: an `n`-page run in which every
page is content and every call returns a 5-MCQ batch yields exactly `5*n`
MCQs, the concatenation of the batches in page order. -/
theorem C2_page_failures_nonfatal_and_batches_in_page_order
    (env1 : IngestEnv) (N1 : Nat) (st1 : IngestState) (i1 : Nat) (msg : String)
    (hskip1 : skipCheck (env1.pageText i1) i1 N1 = none)
    (hthrow : env1.gen i1 = .throws msg)
    (env2 : IngestEnv) (N2 : Nat) (st2 : IngestState) (i2 : Nat)
    (hskip2 : skipCheck (env2.pageText i2) i2 N2 = none)
    (hret2 : env2.gen i2 = .returns (some { mcqs := some [], pageNotes := none }))
    (env3 : IngestEnv) (n : Nat) (batch : Nat → List Mcq) (noteOpt : Nat → Option String)
    (hskip3 : ∀ i ∈ List.range' 1 n, skipCheck (env3.pageText i) i n = none)
    (hgen3 : ∀ i ∈ List.range' 1 n,
      env3.gen i = .returns (some { mcqs := some (batch i), pageNotes := noteOpt i }))
    (hlen3 : ∀ i ∈ List.range' 1 n, (batch i).length = 5) :
    processPage env1 N1 st1 i1 = { st1 with pageErrors := st1.pageErrors ++ [(i1, msg)] } ∧
    processPage env2 N2 st2 i2 =
      { st2 with pageErrors := st2.pageErrors ++
          [(i2, "No MCQs returned by AI."), (i2, "No Notes returned by AI.")] } ∧
    (runPages env3 n).allMcqs = (List.range' 1 n).flatMap batch ∧
    (runPages env3 n).allMcqs.length = 5 * n := by
  refine ⟨processPage_throw env1 N1 st1 i1 msg hskip1 hthrow, ?_, ?_⟩
  · simp [processPage, hskip2, hret2]
  · have hM : ∀ i ∈ List.range' 1 n,
        (processPage env3 n initIngestState i).allMcqs = batch i := by
      intro i hi
      have hlenpos : 0 < (batch i).length := by
        rw [hlen3 i hi]
        omega
      cases hno : noteOpt i with
      | none =>
        have hg := hgen3 i hi
        rw [hno] at hg
        simp [processPage, hskip3 i hi, hg, hlenpos, initIngestState]
      | some s =>
        have hg := hgen3 i hi
        rw [hno] at hg
        by_cases hs : s = "" <;>
          simp [processPage, hskip3 i hi, hg, hlenpos, hs, initIngestState]
    have hMcqs : (runPages env3 n).allMcqs = (List.range' 1 n).flatMap batch := by
      rw [runPages_closed]
      show (List.range' 1 n).flatMap (fun i => (processPage env3 n initIngestState i).allMcqs) =
        (List.range' 1 n).flatMap batch
      rw [List.flatMap_def, List.flatMap_def, List.map_congr_left hM]
    refine ⟨hMcqs, ?_⟩
    rw [hMcqs, List.flatMap_def, List.length_flatten, List.map_map]
    have h5 : ∀ i ∈ List.range' 1 n, (List.length ∘ batch) i = (fun _ => 5) i := by
      intro i hi
      exact hlen3 i hi
    rw [List.map_congr_left h5, List.map_const', List.sum_replicate, List.length_range']
    simp [Nat.mul_comm]

/-- Witness for C2: a throwing page, a malformed page, and a two-page run
in which every page succeeds with a five-MCQ batch. -/
theorem C2_page_failures_nonfatal_and_batches_in_page_order_witness :
    (skipCheck (envThrow.pageText 1) 1 1 = none ∧
     envThrow.gen 1 = .throws "AI generation failed" ∧
     skipCheck (envEmptyGen.pageText 1) 1 1 = none ∧
     envEmptyGen.gen 1 = .returns (some { mcqs := some [], pageNotes := none }) ∧
     (∀ i ∈ List.range' 1 2, skipCheck (envGood.pageText i) i 2 = none) ∧
     (∀ i ∈ List.range' 1 2, envGood.gen i =
       .returns (some { mcqs := some [mcqA, mcqA, mcqA, mcqA, mcqA],
                        pageNotes := some "n" })) ∧
     (∀ i ∈ List.range' 1 2, ([mcqA, mcqA, mcqA, mcqA, mcqA] : List Mcq).length = 5)) ∧
    (processPage envThrow 1 initIngestState 1 =
      { initIngestState with pageErrors :=
          initIngestState.pageErrors ++ [(1, "AI generation failed")] } ∧
    processPage envEmptyGen 1 initIngestState 1 =
      { initIngestState with pageErrors := initIngestState.pageErrors ++
          [(1, "No MCQs returned by AI."), (1, "No Notes returned by AI.")] } ∧
    (runPages envGood 2).allMcqs =
      (List.range' 1 2).flatMap (fun _ => [mcqA, mcqA, mcqA, mcqA, mcqA]) ∧
    (runPages envGood 2).allMcqs.length = 5 * 2) :=
  ⟨⟨by decide, by decide, by decide, by decide, by decide, by decide, by decide⟩,
   C2_page_failures_nonfatal_and_batches_in_page_order
     envThrow 1 initIngestState 1 "AI generation failed" (by decide) (by decide)
     envEmptyGen 1 initIngestState 1 (by decide) (by decide)
     envGood 2 (fun _ => [mcqA, mcqA, mcqA, mcqA, mcqA]) (fun _ => some "n")
     (by decide) (by decide) (by decide)⟩

end Quizify

namespace Quizify

set_option maxRecDepth 10000

/-- C3 counterexample: a content page whose generator returns a complete
batch of only TWO MCQs is not treated as a page failure: both MCQs are
accumulated and no page error is recorded, although the batch does not
contain exactly 5 MCQs. -/
theorem C3_counterexample_two_mcq_batch_accepted :
    (runPages envTwoBatch 1).allMcqs = [mcqA, mcqB] ∧
    (runPages envTwoBatch 1).pageErrors = [] := by
  decide

/-- C3 (amended): only an EMPTY (or missing) `mcqs` batch is treated as a
page failure — a `No MCQs returned by AI.` entry is recorded and nothing is
accumulated — while any non-empty batch is accepted in full, whatever its
size; the "exactly 5" contract lives only in the prompt text, not in the
orchestrator or the flow's output schema.  The flow itself maps a malformed
prompt output to the empty batch, i.e. to the failure path. -/
theorem C3_only_empty_batch_is_page_failure
    (out : Option (Option (List Mcq))) (hout : out = none ∨ out = some none)
    (env1 : IngestEnv) (N1 : Nat) (st1 : IngestState) (i1 : Nat) (s1 : String)
    (hskip1 : skipCheck (env1.pageText i1) i1 N1 = none)
    (hret1 : env1.gen i1 = .returns (some { mcqs := some [], pageNotes := some s1 }))
    (hs1 : s1 ≠ "")
    (env2 : IngestEnv) (N2 : Nat) (st2 : IngestState) (i2 : Nat) (l : List Mcq) (s2 : String)
    (hskip2 : skipCheck (env2.pageText i2) i2 N2 = none)
    (hret2 : env2.gen i2 = .returns (some { mcqs := some l, pageNotes := some s2 }))
    (hl : 0 < l.length) (hs2 : s2 ≠ "") :
    generateMcqsForPageFlow out = [] ∧
    processPage env1 N1 st1 i1 =
      { st1 with pageErrors := st1.pageErrors ++ [(i1, "No MCQs returned by AI.")],
                 allNotes := st1.allNotes ++ ["Page " ++ toString i1 ++ ":\n" ++ s1] } ∧
    processPage env2 N2 st2 i2 =
      { st2 with allMcqs := st2.allMcqs ++ l,
                 allNotes := st2.allNotes ++ ["Page " ++ toString i2 ++ ":\n" ++ s2] } := by
  refine ⟨?_, ?_, processPage_batch env2 N2 st2 i2 l s2 hskip2 hret2 hl hs2⟩
  · rcases hout with h | h <;> simp [generateMcqsForPageFlow, h]
  · simp [processPage, hskip1, hret1, hs1]

/-- Witness for C3: the flow on a missing output, an empty-batch page, and
a two-MCQ-batch page. -/
theorem C3_only_empty_batch_is_page_failure_witness :
    ((none : Option (Option (List Mcq))) = none ∨
       (none : Option (Option (List Mcq))) = some none) ∧
    (generateMcqsForPageFlow none = [] ∧
    processPage
      ({ pageText := fun _ => pageTextB,
         gen := fun _ => .returns (some { mcqs := some [], pageNotes := some "n" }) } :
        IngestEnv) 1 initIngestState 1 =
      { initIngestState with
          pageErrors := initIngestState.pageErrors ++ [(1, "No MCQs returned by AI.")],
          allNotes := initIngestState.allNotes ++ ["Page " ++ toString 1 ++ ":\n" ++ "n"] } ∧
    processPage envTwoBatch 1 initIngestState 1 =
      { initIngestState with
          allMcqs := initIngestState.allMcqs ++ [mcqA, mcqB],
          allNotes := initIngestState.allNotes ++ ["Page " ++ toString 1 ++ ":\n" ++ "n"] }) :=
  ⟨Or.inl rfl,
   C3_only_empty_batch_is_page_failure none (Or.inl rfl)
     ({ pageText := fun _ => pageTextB,
        gen := fun _ => .returns (some { mcqs := some [], pageNotes := some "n" }) })
     1 initIngestState 1 "n" (by decide) (by decide) (by decide)
     envTwoBatch 1 initIngestState 1 [mcqA, mcqB] "n" (by decide) (by decide)
     (by decide) (by decide)⟩

end Quizify

namespace Quizify

set_option maxRecDepth 10000

lemma getD_set_self {α : Type} (l : List α) (k : Nat) (a d : α) (h : k < l.length) :
    (l.set k a).getD k d = a := by
  rw [List.getD_eq_getElem?_getD, List.getElem?_set_self h]
  rfl

/-- C7: submitting with no selection is rejected (state unchanged, no
attempt); submitting with a selection locks the slot and marks it correct
iff the selection equals the MCQ's `correctAnswerIndex`; when the submission
completes the last open slot the session auto-finalizes and appends exactly
one attempt whose score is the number of correct slots and whose
`totalQuestions` is the number of MCQs; otherwise no attempt is appended. -/
theorem C7_submit_rejects_empty_selection_and_autofinalizes
    (quiz : Quiz) (st : SessionState)
    (hn2 : st.answerStatuses.length = quiz.mcqs.length)
    (hn3 : st.isSubmitted.length = quiz.mcqs.length)
    (hk : st.currentQuestionIndex < quiz.mcqs.length) :
    (st.selectedAnswers.getD st.currentQuestionIndex none = none →
      handleSubmitAnswer quiz st = st) ∧
    (∀ sel : Nat, st.selectedAnswers.getD st.currentQuestionIndex none = some sel →
      (handleSubmitAnswer quiz st).isSubmitted.getD st.currentQuestionIndex false = true ∧
      ((handleSubmitAnswer quiz st).answerStatuses.getD st.currentQuestionIndex
          AnswerStatus.unanswered = AnswerStatus.correct ↔
        sel = (quiz.mcqs.getD st.currentQuestionIndex default).correctAnswerIndex) ∧
      (((st.isSubmitted.set st.currentQuestionIndex true).all (fun s => s == true)) →
        (handleSubmitAnswer quiz st).quizFinished = true ∧
        (handleSubmitAnswer quiz st).attempts = st.attempts ++
          [{ quizId := quiz.id,
             answers := st.selectedAnswers,
             score := ((handleSubmitAnswer quiz st).answerStatuses.filter
               (fun s => s == AnswerStatus.correct)).length,
             totalQuestions := quiz.mcqs.length }]) ∧
      (¬ ((st.isSubmitted.set st.currentQuestionIndex true).all (fun s => s == true)) →
        (handleSubmitAnswer quiz st).attempts = st.attempts)) := by
  constructor
  · intro h
    simp only [handleSubmitAnswer, h]
  · intro sel hsel
    by_cases hall : (st.isSubmitted.set st.currentQuestionIndex true).all (fun s => s == true)
    · have heq : handleSubmitAnswer quiz st =
          finishQuiz quiz
            { st with
                isSubmitted := st.isSubmitted.set st.currentQuestionIndex true,
                answerStatuses := st.answerStatuses.set st.currentQuestionIndex
                  (if sel = (quiz.mcqs.getD st.currentQuestionIndex default).correctAnswerIndex
                   then .correct else .incorrect) } := by
        simp only [handleSubmitAnswer, hsel, hall, if_true]
      refine ⟨?_, ?_, fun _ => ⟨?_, ?_⟩, fun hcon => absurd hall hcon⟩
      · rw [heq]
        show ((st.isSubmitted.set st.currentQuestionIndex true).getD
          st.currentQuestionIndex false) = true
        exact getD_set_self _ _ _ _ (by omega)
      · rw [heq]
        show ((st.answerStatuses.set st.currentQuestionIndex _).getD
          st.currentQuestionIndex AnswerStatus.unanswered) = AnswerStatus.correct ↔ _
        rw [getD_set_self _ _ _ _ (by omega)]
        by_cases hc : sel = (quiz.mcqs.getD st.currentQuestionIndex default).correctAnswerIndex
        · simp [hc]
        · simp [hc]
      · rw [heq]
        rfl
      · rw [heq]
        show _ ++ [_] = _ ++ [_]
        congr 1
    · have heq : handleSubmitAnswer quiz st =
          { st with
              isSubmitted := st.isSubmitted.set st.currentQuestionIndex true,
              answerStatuses := st.answerStatuses.set st.currentQuestionIndex
                (if sel = (quiz.mcqs.getD st.currentQuestionIndex default).correctAnswerIndex
                 then .correct else .incorrect) } := by
        simp only [handleSubmitAnswer, hsel, Bool.not_eq_true] at hall ⊢
        simp only [hall, if_false, Bool.false_eq_true]
      refine ⟨?_, ?_, fun hcon => absurd hcon hall, fun _ => ?_⟩
      · rw [heq]
        exact getD_set_self _ _ _ _ (by omega)
      · rw [heq]
        show ((st.answerStatuses.set st.currentQuestionIndex _).getD
          st.currentQuestionIndex AnswerStatus.unanswered) = AnswerStatus.correct ↔ _
        rw [getD_set_self _ _ _ _ (by omega)]
        by_cases hc : sel = (quiz.mcqs.getD st.currentQuestionIndex default).correctAnswerIndex
        · simp [hc]
        · simp [hc]
      · rw [heq]

end Quizify

namespace Quizify

set_option maxRecDepth 10000

/-- Witness for C7: the one-question session `stW` with option 0 selected;
submitting locks the slot as correct and auto-finalizes with one attempt of
score 1 out of 1. -/
theorem C7_submit_rejects_empty_selection_and_autofinalizes_witness :
    (stW.answerStatuses.length = quizW.mcqs.length ∧
     stW.isSubmitted.length = quizW.mcqs.length ∧
     stW.currentQuestionIndex < quizW.mcqs.length) ∧
    ((stW.selectedAnswers.getD stW.currentQuestionIndex none = none →
      handleSubmitAnswer quizW stW = stW) ∧
    (∀ sel : Nat, stW.selectedAnswers.getD stW.currentQuestionIndex none = some sel →
      (handleSubmitAnswer quizW stW).isSubmitted.getD stW.currentQuestionIndex false = true ∧
      ((handleSubmitAnswer quizW stW).answerStatuses.getD stW.currentQuestionIndex
          AnswerStatus.unanswered = AnswerStatus.correct ↔
        sel = (quizW.mcqs.getD stW.currentQuestionIndex default).correctAnswerIndex) ∧
      (((stW.isSubmitted.set stW.currentQuestionIndex true).all (fun s => s == true)) →
        (handleSubmitAnswer quizW stW).quizFinished = true ∧
        (handleSubmitAnswer quizW stW).attempts = stW.attempts ++
          [{ quizId := quizW.id,
             answers := stW.selectedAnswers,
             score := ((handleSubmitAnswer quizW stW).answerStatuses.filter
               (fun s => s == AnswerStatus.correct)).length,
             totalQuestions := quizW.mcqs.length }]) ∧
      (¬ ((stW.isSubmitted.set stW.currentQuestionIndex true).all (fun s => s == true)) →
        (handleSubmitAnswer quizW stW).attempts = stW.attempts))) :=
  ⟨⟨by decide, by decide, by decide⟩,
   C7_submit_rejects_empty_selection_and_autofinalizes quizW stW
     (by decide) (by decide) (by decide)⟩

end Quizify

namespace Quizify

set_option maxRecDepth 10000

lemma isLikelyNonContentPage_iff (text : List Char) (i N : Nat) :
    isLikelyNonContentPage text i N = true ↔
      (((i ≤ 5 ∨ N - 5 ≤ i) ∧
        (∃ t ∈ NON_CONTENT_PAGE_TITLES,
          containsSub t.toList (trimChars (toLowerChars text)) = true) ∧
        (trimChars (toLowerChars text)).length < MIN_TEXT_LENGTH_FOR_CONTENT + 200) ∨
       (∃ t ∈ NON_CONTENT_PAGE_TITLES,
         leadsWith t.toList (trimChars (toLowerChars text)) = true ∧
         (trimChars (toLowerChars text)).length < t.length + 150) ∨
       (matchesHeadingPattern (trimChars (toLowerChars text)) = true ∧
        (trimChars (toLowerChars text)).length < 150)) := by
  unfold isLikelyNonContentPage
  dsimp only
  split_ifs with h1 h2 h3
  · simp only [true_iff]
    simp only [Bool.and_eq_true, Bool.or_eq_true, decide_eq_true_eq,
      List.any_eq_true] at h1
    exact Or.inl ⟨h1.1.1, h1.1.2, h1.2⟩
  · simp only [true_iff]
    simp only [List.any_eq_true, Bool.and_eq_true, decide_eq_true_eq] at h2
    exact Or.inr (Or.inl h2)
  · simp only [true_iff]
    simp only [Bool.and_eq_true, decide_eq_true_eq] at h3
    exact Or.inr (Or.inr h3)
  · simp only [Bool.false_eq_true, false_iff]
    intro hcon
    rcases hcon with hc | hc | hc
    · apply h1
      simp only [Bool.and_eq_true, Bool.or_eq_true, decide_eq_true_eq,
        List.any_eq_true]
      exact ⟨⟨hc.1, hc.2.1⟩, hc.2.2⟩
    · apply h2
      simp only [List.any_eq_true, Bool.and_eq_true, decide_eq_true_eq]
      exact hc
    · apply h3
      simp only [Bool.and_eq_true, decide_eq_true_eq]
      exact hc

end Quizify

namespace Quizify

set_option maxRecDepth 10000

/-- C8 (amended): the ingestion pipeline skips a page exactly when one of
the ordered rules fires — empty/whitespace-only text; the page is within
the first five pages or has `pageNumber >= totalPages - 5` (the last SIX
pages, not five), contains a structural marker and its trimmed lowercase
text is shorter than 600 characters; the trimmed lowercase text starts with
a marker and is within 150 characters of the marker's length; it has a
leading chapter/part/section-number heading and is under 150 characters; or
its length is below 400 characters.  Otherwise the page proceeds to
generation. -/
theorem C8_skip_rules_iff (text : List Char) (i N : Nat) :
    (skipCheck text i N).isSome = true ↔
      (trimChars text = [] ∨
       ((i ≤ 5 ∨ N - 5 ≤ i) ∧
        (∃ t ∈ NON_CONTENT_PAGE_TITLES,
          containsSub t.toList (trimChars (toLowerChars text)) = true) ∧
        (trimChars (toLowerChars text)).length < MIN_TEXT_LENGTH_FOR_CONTENT + 200) ∨
       (∃ t ∈ NON_CONTENT_PAGE_TITLES,
         leadsWith t.toList (trimChars (toLowerChars text)) = true ∧
         (trimChars (toLowerChars text)).length < t.length + 150) ∨
       (matchesHeadingPattern (trimChars (toLowerChars text)) = true ∧
        (trimChars (toLowerChars text)).length < 150) ∨
       (trimChars (toLowerChars text)).length < MIN_TEXT_LENGTH_FOR_CONTENT) := by
  unfold skipCheck
  dsimp only
  split_ifs with h1 h2 h3
  · simp only [Option.isSome_some, true_iff]
    exact Or.inl (List.isEmpty_iff.mp h1)
  · simp only [Option.isSome_some, true_iff]
    have hmid := (isLikelyNonContentPage_iff (trimChars (toLowerChars text)) i N).mp h2
    rw [trimLower_idem] at hmid
    rcases hmid with hc | hc | hc
    · exact Or.inr (Or.inl hc)
    · exact Or.inr (Or.inr (Or.inl hc))
    · exact Or.inr (Or.inr (Or.inr (Or.inl hc)))
  · simp only [Option.isSome_some, true_iff]
    exact Or.inr (Or.inr (Or.inr (Or.inr h3)))
  · simp only [Option.isSome_none, Bool.false_eq_true, false_iff]
    intro hcon
    rcases hcon with hc | hc | hc | hc | hc
    · exact h1 (by rw [hc]; rfl)
    · apply h2
      rw [isLikelyNonContentPage_iff, trimLower_idem]
      exact Or.inl hc
    · apply h2
      rw [isLikelyNonContentPage_iff, trimLower_idem]
      exact Or.inr (Or.inl hc)
    · apply h2
      rw [isLikelyNonContentPage_iff, trimLower_idem]
      exact Or.inr (Or.inr hc)
    · exact h3 hc

/-- C8 counterexample: page 15 of a 20-page document whose 408-character
text contains "table of contents" is skipped by the code (its window test
`pageNumber >= totalPages - 5` admits the sixth-from-last page), but the
specification's rules as stated — window limited to the LAST FIVE pages —
say the page proceeds to generation. -/
theorem C8_counterexample_window_is_last_six_pages :
    (skipCheck pageC8 15 20).isSome = true ∧ skipPerClaimC8 pageC8 15 20 = false := by
  decide

end Quizify
